import Mathlib

/-!
Shallow embedding of the Life Points (LP) engine of the automl_CLI
repository (package `automl_todolist`): the constants of `config.py`,
`LPCalculationService.calculate_lp_gain`, `TaskService.recalculate_all_lp`,
the season lifecycle of `SeasonService`, and the decay arithmetic of
`StatusService.get_lp_status` (all in `services.py`).

Modelling conventions:

* a Python aware `datetime` is an absolute instant counted in integer
  seconds; a naive `datetime` is a wall-clock reading in integer seconds;
* an IANA timezone obtained from `dateutil.tz.gettz` is modelled as a
  fixed UTC offset in seconds: `astimezone(tz)` adds the offset to the
  instant to obtain wall seconds, and `replace(tzinfo=tz)` reinterprets
  wall seconds as an instant by subtracting the offset;
* `datetime.date()` is the floor division of wall seconds by 86400
  (days since the epoch) and `datetime.time()` is the remainder
  (seconds since local midnight);
* Python `float` LP values are modelled as exact rationals, and Python's
  built-in `round` (round half to even) is `pyRound`.
-/

namespace AutomlTodolist

/-- POINTS_MAP from config.py lines 37-43: base points per difficulty
name; lookup misses are `none`. -/
def POINTS_MAP : String → Option Int
  | "Easy" => some 1
  | "Easy-Med" => some 2
  | "Med" => some 4
  | "Med-Hard" => some 8
  | "Hard" => some 16
  | _ => none

/-- `POINTS_MAP.get(task.difficulty, 0)` from services.py line 139:
a dictionary lookup defaulting to 0. -/
def points_get (d : String) : Int := (POINTS_MAP d).getD 0

/-- DIFFICULTY_NORMALIZATION_MAP from config.py lines 46-48 as applied in
recalculate_all_lp (services.py lines 754-756): the single legacy value
"Medium" is rewritten to "Med"; every other value is left unchanged. -/
def normalize_difficulty : Option String → Option String
  | some s => if s = "Medium" then some "Med" else some s
  | none => none

/-- ROUNDING_INTERVAL_MINUTES from config.py line 56. -/
def ROUNDING_INTERVAL_MINUTES : ℚ := 15

/-- MINUTES_PER_HOUR from config.py line 55. -/
def MINUTES_PER_HOUR : ℚ := 60

/-- A Python `datetime`: either timezone-aware (an absolute instant, in
UTC seconds) or naive (wall-clock seconds with no zone attached). -/
inductive PyDateTime where
  | aware (utcSeconds : Int)
  | naive (wallSeconds : Int)
deriving Repr, DecidableEq

/-- Normalisation of a datetime to a UTC instant as performed in
calculate_lp_gain (services.py lines 146-157): a naive value is first
given the season timezone with `replace(tzinfo=season_timezone)` and
then both are converted with `astimezone(timezone.utc)`. -/
def toUtcSeconds (tzOffset : Int) : PyDateTime → Int
  | .aware u => u
  | .naive w => w - tzOffset

/-- The fields of models.Task that the LP engine reads. -/
structure Task where
  difficulty : Option String := none
  start_time : Option PyDateTime := none
  finish_time : Option PyDateTime := none
  time_taken_minutes : Option Int := none
  lp_gain : Option ℚ := none
  completed : Bool := false
deriving Repr, DecidableEq

/-- The fields of models.Season that the LP engine reads.  `start_date`
is an aware instant in UTC seconds and `tzOffset` is the fixed UTC
offset modelling `gettz(timezone_string)`. -/
structure Season where
  id : Int := 0
  name : String := ""
  is_active : Bool := false
  start_date : Int := 0
  daily_decay : ℚ := 56
  tzOffset : Int := 0
  day_start_hour : Int := 0
deriving Repr, DecidableEq

/-- Python's built-in `round` on an exact rational: round half to even
(banker's rounding), matching `round(duration_minutes / 15)` in
services.py line 163. -/
def pyRound (q : ℚ) : Int :=
  let f : Int := ⌊q⌋
  let r : ℚ := q - (f : ℚ)
  if r < 1/2 then f
  else if 1/2 < r then f + 1
  else if f % 2 = 0 then f else f + 1

/-- The `duration_minutes` local of calculate_lp_gain (services.py lines
141-159): the manual `time_taken_minutes` override wins; otherwise, when
both `start_time` and `finish_time` are present, the difference of their
UTC instants in seconds divided by 60; otherwise 0. -/
def duration_minutes (t : Task) (tzOffset : Int) : ℚ :=
  match t.time_taken_minutes with
  | some m => (m : ℚ)
  | none =>
    match t.start_time, t.finish_time with
    | some s, some f =>
        ((toUtcSeconds tzOffset f - toUtcSeconds tzOffset s : Int) : ℚ) / 60
    | _, _ => 0

/-- LPCalculationService.calculate_lp_gain (services.py lines 126-167).
`if not task.difficulty` is Python truthiness on an optional string, so
both `None` and the empty string yield `None`.  A positive duration is
rounded to the nearest 15-minute interval, converted to hours and
multiplied by the base points (0 for an unrecognized difficulty name);
a non-positive duration yields 0.0. -/
def calculate_lp_gain (t : Task) (tzOffset : Int) : Option ℚ :=
  match t.difficulty with
  | none => none
  | some d =>
    if d = "" then none
    else
      let base_points : ℚ := (points_get d : Int)
      let dm := duration_minutes t tzOffset
      if 0 < dm then
        let rounded_minutes : ℚ := ((pyRound (dm / ROUNDING_INTERVAL_MINUTES) : Int) : ℚ) * ROUNDING_INTERVAL_MINUTES
        let duration_hours : ℚ := rounded_minutes / MINUTES_PER_HOUR
        some (base_points * duration_hours)
      else
        some 0

/-- `datetime.date()` of a wall-clock reading: days since the epoch. -/
def dateOf (wall : Int) : Int := Int.fdiv wall 86400

/-- `datetime.time()` of a wall-clock reading: seconds since local
midnight, always in `[0, 86400)`. -/
def timeOf (wall : Int) : Int := Int.emod wall 86400

/-- `datetime.combine(d, time(hour), tzinfo=tz)` as a UTC instant: the
wall-clock reading `hour:00:00` of local day `d` converted to UTC. -/
def combineLocal (d hour tzOffset : Int) : Int :=
  d * 86400 + hour * 3600 - tzOffset

/-- The day-bucket rule as written three times in get_lp_status
(services.py lines 811-813, 831-833, 858-860): convert the instant to
the season timezone, take its calendar date, and move one day back when
the local time of day is before `day_start_hour:00`. -/
def lpBucketDate (t tzOffset hour : Int) : Int :=
  let wall := t + tzOffset
  if timeOf wall < hour * 3600 then dateOf (wall - 86400) else dateOf wall

/-- The `first_decay_point_for_season` local of get_lp_status
(services.py lines 816-819): combine the season start's local date with
`day_start_hour:00` in the season timezone, advanced by one day when
that instant precedes the season start instant. -/
def first_decay_point (season : Season) : Int :=
  let startWall := season.start_date + season.tzOffset
  let fd := combineLocal (dateOf startWall) season.day_start_hour season.tzOffset
  if fd < season.start_date then fd + 86400 else fd

/-- The `days_passed` local of get_lp_status (services.py lines
821-822): whole 24-hour periods since the first decay point, floored
at 0. -/
def days_passed (season : Season) (now : Int) : Int :=
  max 0 (Int.fdiv (now - first_decay_point season) 86400)

/-- The `next_decay_point` local of get_lp_status (services.py lines
894-898): today's `day_start_hour:00` wall-clock instant, advanced by
one day when `now` has already reached it. -/
def next_decay_point (season : Season) (now : Int) : Int :=
  let todays := combineLocal (dateOf (now + season.tzOffset)) season.day_start_hour season.tzOffset
  if todays ≤ now then todays + 86400 else todays

/-- The finish instant of a task, localizing naive values to the season
timezone as get_completed_tasks_as_df does (services.py lines 497-500). -/
def finish_instant (tzOffset : Int) (t : Task) : Option Int :=
  t.finish_time.map (toUtcSeconds tzOffset)

/-- The `is_task_for_today_lp` helper of get_lp_status (services.py
lines 826-836): a task contributes to today's gain when it has a finish
time whose day bucket equals `today`. -/
def is_task_for_today_lp (season : Season) (today : Int) (t : Task) : Bool :=
  match finish_instant season.tzOffset t with
  | some ft => lpBucketDate ft season.tzOffset season.day_start_hour == today
  | none => false

/-- The scalar results computed by StatusService.get_lp_status. -/
structure LPStatus where
  total_lp_gain : ℚ
  total_decay : ℚ
  net_total_lp : ℚ
  daily_lp_gain : ℚ
  days_passed : Int
  time_until_next_decay : Int
  breakeven_lp_gain_required : ℚ
deriving Repr, DecidableEq

/-- StatusService.get_lp_status (services.py lines 783-918), restricted
to its scalar outputs: the season's completed tasks are summed for the
total gain (a missing `lp_gain` contributes nothing, as in the pandas
NaN-skipping sum), today's gain keeps only tasks bucketed to today's
day, and the decay totals follow `days_passed`. -/
def get_lp_status (season : Season) (tasks : List Task) (now : Int) : LPStatus :=
  let completed := tasks.filter (·.completed)
  let total_lp_gain := (completed.map (fun t => t.lp_gain.getD 0)).sum
  let today := lpBucketDate now season.tzOffset season.day_start_hour
  let daily_lp_gain :=
    ((completed.filter (is_task_for_today_lp season today)).map (fun t => t.lp_gain.getD 0)).sum
  let dp := days_passed season now
  let total_decay : ℚ := (dp : ℚ) * season.daily_decay
  let net_total_lp := total_lp_gain - total_decay
  let next := next_decay_point season now
  { total_lp_gain := total_lp_gain
    total_decay := total_decay
    net_total_lp := net_total_lp
    daily_lp_gain := daily_lp_gain
    days_passed := dp
    time_until_next_decay := next - now
    breakeven_lp_gain_required := max 0 (season.daily_decay - net_total_lp) }

/-- The literal key list of the dictionary returned by
StatusService.get_lp_status (services.py lines 905-918). -/
def get_lp_status_return_keys : List String :=
  ["total_lp_gain", "total_decay", "net_total_lp", "daily_lp_gain",
   "time_until_next_decay", "breakeven_lp_gain_required", "lp_by_day",
   "season_name", "week", "weekly_lp_total", "weekly_decay", "weekly_delta"]

/-- One iteration of the loop of TaskService.recalculate_all_lp
(services.py lines 753-761): normalize a legacy difficulty value, then
recompute the gain; the counter increments exactly when the stored
`lp_gain` differs from the recomputed one. -/
def recalc_task (tzOffset : Int) (t : Task) : Task × Nat :=
  let t1 : Task := { t with difficulty := normalize_difficulty t.difficulty }
  let new_lp := calculate_lp_gain t1 tzOffset
  if t.lp_gain = new_lp then (t1, 0) else ({ t1 with lp_gain := new_lp }, 1)

/-- TaskService.recalculate_all_lp (services.py lines 739-767) on the
task list of the active season: every completed task goes through
`recalc_task`; the returned count is the number of tasks whose gain
changed. -/
def recalculate_all_lp (tzOffset : Int) : List Task → List Task × Nat
  | [] => ([], 0)
  | t :: rest =>
    let r := recalculate_all_lp tzOffset rest
    if t.completed then
      ((recalc_task tzOffset t).1 :: r.1, (recalc_task tzOffset t).2 + r.2)
    else
      (t :: r.1, r.2)

/-- The error taxonomy of exceptions.py that the season lifecycle can
report. -/
inductive ServiceError where
  | noActiveSeason
  | seasonNotFound (id : Int)
deriving Repr, DecidableEq

/-- SeasonService.get_active_season (services.py lines 174-190): the
first season flagged active, or a NoActiveSeasonError. -/
def get_active_season (seasons : List Season) : Except ServiceError Season :=
  match seasons.find? (·.is_active) with
  | some s => .ok s
  | none => .error .noActiveSeason

/-- Deactivation of the current active season as done by create_season
and switch_season (services.py lines 207-214 and 261-266): only the
first active season (the `.first()` of the query) is flipped. -/
def deactivate_first_active : List Season → List Season
  | [] => []
  | s :: rest =>
    if s.is_active then { s with is_active := false } :: rest
    else s :: deactivate_first_active rest

/-- SeasonService.create_season (services.py lines 193-234): deactivate
the old active season if any, then insert a new season with
`is_active = True`. -/
def create_season (new : Season) (seasons : List Season) : List Season :=
  deactivate_first_active seasons ++ [{ new with is_active := true }]

/-- Activation of the season found by id in switch_season (services.py
lines 269-274): only the first season with the requested id is
flipped. -/
def activate_first (sid : Int) : List Season → List Season
  | [] => []
  | s :: rest =>
    if s.id = sid then { s with is_active := true } :: rest
    else s :: activate_first sid rest

/-- SeasonService.switch_season (services.py lines 246-279): deactivate
the current active season, then activate the season with the requested
id; an unknown id raises SeasonNotFoundError, and the surrounding
get_db_session context manager rolls the transaction back, leaving the
stored state unchanged. -/
def switch_season (sid : Int) (seasons : List Season) : Except ServiceError (List Season) :=
  match (deactivate_first_active seasons).find? (fun s => s.id == sid) with
  | none => .error (.seasonNotFound sid)
  | some _ => .ok (activate_first sid (deactivate_first_active seasons))

/-- Number of seasons flagged active. -/
def count_active (seasons : List Season) : Nat :=
  (seasons.filter (·.is_active)).length

/-- Example task used as a concrete witness input: a Hard task with a
60-minute manual duration. -/
def exTaskHard : Task :=
  { difficulty := some "Hard", time_taken_minutes := some 60, completed := true }

/-- Example task used as a concrete witness input: a Med task with a
0-minute manual duration override. -/
def exTaskZero : Task :=
  { difficulty := some "Med", time_taken_minutes := some 0, completed := true }

/-- Example task used as a concrete witness input: a legacy "Medium"
difficulty with a positive manual duration. -/
def exTaskLegacy : Task :=
  { difficulty := some "Medium", time_taken_minutes := some 60, completed := true }

/-- The example season of the spec's testable-properties section: it
starts at 00:00 local time of local day number 20290 (2025-07-21) in a
zone 4 hours behind UTC (America/New_York in July), with daily decay 56
and day_start_hour 0. -/
def exSeason : Season :=
  { id := 1, name := "Season 1", is_active := true,
    start_date := 20290 * 86400 + 14400, daily_decay := 56,
    tzOffset := -14400, day_start_hour := 0 }

/-- Example seasons list used as a concrete witness input: season 1 is
active, season 2 is archived. -/
def exSeasons : List Season :=
  [{ id := 1, name := "S1", is_active := true }, { id := 2, name := "S2" }]

/-- Example new season used as a concrete witness input. -/
def exNewSeason : Season := { id := 3, name := "S3" }

/-! Helper lemmas shared by the claim theorems. -/

lemma points_map_empty : POINTS_MAP "" = none := rfl

lemma pyRound_intCast (z : Int) : pyRound (z : ℚ) = z := by
  unfold pyRound
  norm_num

/-- C1: For every task with a recognized difficulty and a positive
duration of M minutes, calculate_lp_gain returns
base_points * (round(M/15)*15)/60, where M is the manual override when
present and otherwise the UTC delta of finish and start times (naive
timestamps localized to the season timezone), and the base points are
Easy=1, Easy-Med=2, Med=4, Med-Hard=8, Hard=16. -/
theorem calculate_lp_gain_formula (t : Task) (tz : Int) (d : String) (base : Int)
    (hd : t.difficulty = some d) (hbase : POINTS_MAP d = some base)
    (hpos : 0 < duration_minutes t tz) :
    calculate_lp_gain t tz
      = some ((base : ℚ) * ((((pyRound (duration_minutes t tz / 15) : Int) : ℚ) * 15) / 60))
    ∧ (∀ m : Int, t.time_taken_minutes = some m → duration_minutes t tz = (m : ℚ))
    ∧ (t.time_taken_minutes = none →
        ∀ s f, t.start_time = some s → t.finish_time = some f →
          duration_minutes t tz
            = ((toUtcSeconds tz f - toUtcSeconds tz s : Int) : ℚ) / 60)
    ∧ POINTS_MAP "Easy" = some 1 ∧ POINTS_MAP "Easy-Med" = some 2
    ∧ POINTS_MAP "Med" = some 4 ∧ POINTS_MAP "Med-Hard" = some 8
    ∧ POINTS_MAP "Hard" = some 16 := by
  have hne : d ≠ "" := by
    rintro rfl
    rw [points_map_empty] at hbase
    exact Option.noConfusion hbase
  refine ⟨?_, ?_, ?_, rfl, rfl, rfl, rfl, rfl⟩
  · unfold calculate_lp_gain
    rw [hd]
    simp only [if_neg hne, if_pos hpos, ROUNDING_INTERVAL_MINUTES, MINUTES_PER_HOUR,
      points_get, hbase, Option.getD_some]
  · intro m hm
    unfold duration_minutes
    rw [hm]
  · intro hnone s f hs hf
    unfold duration_minutes
    rw [hnone, hs, hf]

/-- C1 witness: the Hard/60-minute example evaluates to 16 LP. -/
theorem calculate_lp_gain_formula_witness :
    0 < duration_minutes exTaskHard 0 ∧ calculate_lp_gain exTaskHard 0 = some 16 := by
  have hpos : 0 < duration_minutes exTaskHard 0 := by
    norm_num [duration_minutes, exTaskHard]
  refine ⟨hpos, ?_⟩
  have h := (calculate_lp_gain_formula exTaskHard 0 "Hard" 16 rfl rfl hpos).1
  rw [h]
  have hdm : duration_minutes exTaskHard 0 = 60 := by
    norm_num [duration_minutes, exTaskHard]
  rw [hdm]
  have h4 : pyRound ((60 : ℚ) / 15) = 4 := by
    rw [show (60 : ℚ) / 15 = ((4 : Int) : ℚ) by norm_num, pyRound_intCast]
  rw [h4]
  norm_num

/-- C7: calculate_lp_gain returns None exactly when the task's
difficulty is unset (None or the falsy empty string); when a difficulty
is set but the computed duration is not positive, it returns 0.0
rather than None. -/
theorem calculate_lp_gain_none_iff (t : Task) (tz : Int) :
    (calculate_lp_gain t tz = none ↔ t.difficulty = none ∨ t.difficulty = some "")
    ∧ (∀ d, t.difficulty = some d → d ≠ "" → duration_minutes t tz ≤ 0 →
        calculate_lp_gain t tz = some 0) := by
  constructor
  · cases hdiff : t.difficulty with
    | none => simp [calculate_lp_gain, hdiff]
    | some d =>
      by_cases hd : d = ""
      · subst hd
        simp [calculate_lp_gain, hdiff]
      · simp only [calculate_lp_gain, hdiff, if_neg hd]
        constructor
        · intro hcon
          by_cases hpos : 0 < duration_minutes t tz
          · rw [if_pos hpos] at hcon
            exact Option.noConfusion hcon
          · rw [if_neg hpos] at hcon
            exact Option.noConfusion hcon
        · rintro (h | h)
          · exact Option.noConfusion h
          · rw [Option.some_inj] at h
            exact absurd h hd
  · intro d hd hne hle
    unfold calculate_lp_gain
    rw [hd]
    dsimp only
    rw [if_neg hne, if_neg (not_lt.mpr hle)]

/-- C7 witness: a Med task with a manual duration override of 0 minutes
earns exactly 0.0 LP (not None). -/
theorem calculate_lp_gain_none_iff_witness :
    duration_minutes exTaskZero 0 ≤ 0 ∧ calculate_lp_gain exTaskZero 0 = some 0 := by
  have hle : duration_minutes exTaskZero 0 ≤ 0 := by
    norm_num [duration_minutes, exTaskZero]
  exact ⟨hle, (calculate_lp_gain_none_iff exTaskZero 0).2 "Med" rfl (by decide) hle⟩

/-- C10: a non-empty difficulty name outside the five recognized ones
(such as the legacy "Medium") gets base points 0 from the defaulting
dictionary lookup, so a positive duration still yields 0.0 rather than
None or an error. -/
theorem calculate_lp_gain_unrecognized (t : Task) (tz : Int) (d : String)
    (hd : t.difficulty = some d) (hne : d ≠ "") (hun : POINTS_MAP d = none)
    (hpos : 0 < duration_minutes t tz) :
    calculate_lp_gain t tz = some 0 := by
  unfold calculate_lp_gain
  rw [hd]
  dsimp only
  rw [if_neg hne, if_pos hpos]
  simp [points_get, hun]

/-- C10 witness: the legacy "Medium" difficulty with 60 minutes of
duration evaluates to 0.0 LP. -/
theorem calculate_lp_gain_unrecognized_witness :
    0 < duration_minutes exTaskLegacy 0 ∧ calculate_lp_gain exTaskLegacy 0 = some 0 := by
  have hpos : 0 < duration_minutes exTaskLegacy 0 := by
    norm_num [duration_minutes, exTaskLegacy]
  exact ⟨hpos, calculate_lp_gain_unrecognized exTaskLegacy 0 "Medium" rfl (by decide) rfl hpos⟩

/-- C4 counterexample: the dictionary returned by get_lp_status has no
key named days_passed and no key named lp_by_day_of_week. -/
theorem get_lp_status_keys_counterexample :
    "days_passed" ∉ get_lp_status_return_keys
    ∧ "lp_by_day_of_week" ∉ get_lp_status_return_keys := by
  decide

/-- C4 (amended): the dictionary returned by get_lp_status contains the
keys total_lp_gain, total_decay, net_total_lp, daily_lp_gain,
breakeven_lp_gain_required, time_until_next_decay, and lp_by_day; it
contains neither days_passed nor lp_by_day_of_week. -/
theorem get_lp_status_keys_amended :
    "total_lp_gain" ∈ get_lp_status_return_keys
    ∧ "total_decay" ∈ get_lp_status_return_keys
    ∧ "net_total_lp" ∈ get_lp_status_return_keys
    ∧ "daily_lp_gain" ∈ get_lp_status_return_keys
    ∧ "breakeven_lp_gain_required" ∈ get_lp_status_return_keys
    ∧ "time_until_next_decay" ∈ get_lp_status_return_keys
    ∧ "lp_by_day" ∈ get_lp_status_return_keys
    ∧ "days_passed" ∉ get_lp_status_return_keys
    ∧ "lp_by_day_of_week" ∉ get_lp_status_return_keys := by
  decide

lemma normalize_difficulty_idem (d : Option String) :
    normalize_difficulty (normalize_difficulty d) = normalize_difficulty d := by
  cases d with
  | none => rfl
  | some s =>
    by_cases hs : s = "Medium"
    · subst hs
      rfl
    · simp [normalize_difficulty, hs]

lemma calculate_lp_gain_lp_irrel (t : Task) (tz : Int) (x : Option ℚ) :
    calculate_lp_gain { t with lp_gain := x } tz = calculate_lp_gain t tz := rfl

lemma recalc_task_completed (tz : Int) (t : Task) :
    ((recalc_task tz t).1).completed = t.completed := by
  unfold recalc_task
  dsimp only
  split <;> rfl

lemma recalc_task_snd (tz : Int) (t : Task) :
    (recalc_task tz t).2
      = if t.lp_gain
           = calculate_lp_gain { t with difficulty := normalize_difficulty t.difficulty } tz
        then 0 else 1 := by
  unfold recalc_task
  dsimp only
  split <;> simp_all

lemma recalc_task_eq_pos (tz : Int) (d : Option String) (st ft : Option PyDateTime)
    (tm : Option Int) (lp : Option ℚ) (c : Bool)
    (h : lp = calculate_lp_gain (Task.mk (normalize_difficulty d) st ft tm lp c) tz) :
    recalc_task tz (Task.mk d st ft tm lp c)
      = (Task.mk (normalize_difficulty d) st ft tm lp c, 0) := by
  unfold recalc_task
  dsimp only
  rw [if_pos h]

lemma recalc_task_eq_neg (tz : Int) (d : Option String) (st ft : Option PyDateTime)
    (tm : Option Int) (lp : Option ℚ) (c : Bool)
    (h : ¬ lp = calculate_lp_gain (Task.mk (normalize_difficulty d) st ft tm lp c) tz) :
    recalc_task tz (Task.mk d st ft tm lp c)
      = (Task.mk (normalize_difficulty d) st ft tm
          (calculate_lp_gain (Task.mk (normalize_difficulty d) st ft tm lp c) tz) c, 1) := by
  unfold recalc_task
  dsimp only
  rw [if_neg h]

lemma recalc_task_idem (tz : Int) (t : Task) :
    recalc_task tz (recalc_task tz t).1 = ((recalc_task tz t).1, 0) := by
  obtain ⟨d, st, ft, tm, lp, c⟩ := t
  by_cases h : lp = calculate_lp_gain (Task.mk (normalize_difficulty d) st ft tm lp c) tz
  · rw [recalc_task_eq_pos tz d st ft tm lp c h]
    dsimp only
    rw [recalc_task_eq_pos tz (normalize_difficulty d) st ft tm lp c
      (by rw [normalize_difficulty_idem]; exact h)]
    rw [normalize_difficulty_idem]
  · rw [recalc_task_eq_neg tz d st ft tm lp c h]
    dsimp only
    rw [recalc_task_eq_pos tz (normalize_difficulty d) st ft tm
      (calculate_lp_gain (Task.mk (normalize_difficulty d) st ft tm lp c) tz) c
      (by
        rw [normalize_difficulty_idem]
        exact (calculate_lp_gain_lp_irrel (Task.mk (normalize_difficulty d) st ft tm lp c) tz
          (calculate_lp_gain (Task.mk (normalize_difficulty d) st ft tm lp c) tz)).symm)]
    rw [normalize_difficulty_idem]

lemma recalc_task_idem_snd (tz : Int) (t : Task) :
    (recalc_task tz (recalc_task tz t).1).2 = 0 := by
  rw [recalc_task_idem]

lemma recalculate_all_lp_cons_completed (tz : Int) (t : Task) (rest : List Task)
    (hc : t.completed = true) :
    recalculate_all_lp tz (t :: rest)
      = ((recalc_task tz t).1 :: (recalculate_all_lp tz rest).1,
         (recalc_task tz t).2 + (recalculate_all_lp tz rest).2) := by
  simp only [recalculate_all_lp]
  rw [if_pos hc]

lemma recalculate_all_lp_cons_not_completed (tz : Int) (t : Task) (rest : List Task)
    (hc : ¬ t.completed = true) :
    recalculate_all_lp tz (t :: rest)
      = (t :: (recalculate_all_lp tz rest).1, (recalculate_all_lp tz rest).2) := by
  simp only [recalculate_all_lp]
  rw [if_neg hc]

/-- C5: recalculate_all_lp is idempotent: a second run over the tasks
produced by a first run counts 0 recalculated tasks, and each run's
count is exactly the number of completed tasks whose stored lp_gain
differs from the recomputed value. -/
theorem recalculate_all_lp_idempotent (tz : Int) (tasks : List Task) :
    (recalculate_all_lp tz (recalculate_all_lp tz tasks).1).2 = 0
    ∧ (recalculate_all_lp tz tasks).2
      = tasks.countP (fun t =>
          t.completed
          && !(t.lp_gain
                == calculate_lp_gain
                    { t with difficulty := normalize_difficulty t.difficulty } tz)) := by
  induction tasks with
  | nil => exact ⟨rfl, rfl⟩
  | cons t rest ih =>
    constructor
    · by_cases hc : t.completed = true
      · rw [recalculate_all_lp_cons_completed tz t rest hc]
        dsimp only
        rw [recalculate_all_lp_cons_completed tz _ _ (by rw [recalc_task_completed, hc])]
        dsimp only
        rw [recalc_task_idem_snd, ih.1]
      · rw [recalculate_all_lp_cons_not_completed tz t rest hc]
        dsimp only
        rw [recalculate_all_lp_cons_not_completed tz t _ hc]
        dsimp only
        exact ih.1
    · by_cases hc : t.completed = true
      · rw [recalculate_all_lp_cons_completed tz t rest hc]
        dsimp only
        rw [List.countP_cons, ih.2, recalc_task_snd]
        rw [show (t.completed
              && !(t.lp_gain == calculate_lp_gain
                    { t with difficulty := normalize_difficulty t.difficulty } tz))
            = !(t.lp_gain == calculate_lp_gain
                    { t with difficulty := normalize_difficulty t.difficulty } tz) by
          rw [hc, Bool.true_and]]
        by_cases hlp : t.lp_gain
            = calculate_lp_gain { t with difficulty := normalize_difficulty t.difficulty } tz
        · rw [if_pos hlp]
          rw [show (!(t.lp_gain == calculate_lp_gain
                { t with difficulty := normalize_difficulty t.difficulty } tz)) = false by
            rw [beq_iff_eq.mpr hlp]
            rfl]
          rw [if_neg (by decide : ¬ false = true)]
          omega
        · rw [if_neg hlp]
          rw [show (!(t.lp_gain == calculate_lp_gain
                { t with difficulty := normalize_difficulty t.difficulty } tz)) = true by
            rw [beq_eq_false_iff_ne.mpr hlp]
            rfl]
          rw [if_pos rfl]
          omega
      · rw [recalculate_all_lp_cons_not_completed tz t rest hc]
        dsimp only
        rw [List.countP_cons, ih.2]
        rw [show (t.completed
              && !(t.lp_gain == calculate_lp_gain
                    { t with difficulty := normalize_difficulty t.difficulty } tz)) = false by
          rw [Bool.eq_false_iff.mpr hc, Bool.false_and]]
        rw [if_neg (by decide : ¬ false = true)]
        omega

/-! Integer division helpers bridging Python floor division, Lean's
Euclidean division and rational floors. -/

lemma fdiv_86400 (a : Int) : Int.fdiv a 86400 = a / 86400 :=
  Int.fdiv_eq_ediv a (by norm_num)

lemma emod_86400 (a : Int) : Int.emod a 86400 = a % 86400 := rfl

lemma fdiv_86400_floor (a : Int) : Int.fdiv a 86400 = ⌊((a : ℚ) / (86400 : ℚ))⌋ := by
  rw [fdiv_86400, show ((86400 : ℚ)) = ((86400 : ℕ) : ℚ) by norm_num,
    Rat.floor_intCast_div_natCast]
  norm_num

lemma get_lp_status_days_passed (season : Season) (tasks : List Task) (now : Int) :
    (get_lp_status season tasks now).days_passed = days_passed season now := rfl

lemma get_lp_status_total_decay (season : Season) (tasks : List Task) (now : Int) :
    (get_lp_status season tasks now).total_decay
      = ((days_passed season now : Int) : ℚ) * season.daily_decay := rfl

/-- C2: days_passed is the 24-hour floor count since the first decay
point (itself the season start date combined with day_start_hour in the
season timezone, pushed one day later when that instant precedes the
season start); total_decay is days_passed times daily_decay and
net_total_lp is total_lp_gain minus total_decay; with daily decay 56,
three full elapsed days give total_decay 168. -/
theorem get_lp_status_decay_spec (season : Season) (tasks : List Task) (now : Int) :
    (get_lp_status season tasks now).days_passed
      = max 0 ⌊(((now - first_decay_point season : Int) : ℚ) / ((24 : ℚ) * 3600))⌋
    ∧ first_decay_point season
      = (if combineLocal (dateOf (season.start_date + season.tzOffset))
              season.day_start_hour season.tzOffset < season.start_date
         then combineLocal (dateOf (season.start_date + season.tzOffset))
                season.day_start_hour season.tzOffset + 86400
         else combineLocal (dateOf (season.start_date + season.tzOffset))
                season.day_start_hour season.tzOffset)
    ∧ (get_lp_status season tasks now).total_decay
      = ((get_lp_status season tasks now).days_passed : ℚ) * season.daily_decay
    ∧ (get_lp_status season tasks now).net_total_lp
      = (get_lp_status season tasks now).total_lp_gain
          - (get_lp_status season tasks now).total_decay
    ∧ (season.daily_decay = 56 → now = first_decay_point season + 3 * 86400 →
        (get_lp_status season tasks now).total_decay = 168) := by
  refine ⟨?_, rfl, rfl, rfl, ?_⟩
  · rw [get_lp_status_days_passed]
    unfold days_passed
    rw [fdiv_86400_floor]
    norm_num
  · intro h56 hnow
    have h3 : days_passed season now = 3 := by
      unfold days_passed
      rw [hnow, fdiv_86400]
      have : first_decay_point season + 3 * 86400 - first_decay_point season = 3 * 86400 := by
        ring
      rw [this]
      decide
    rw [get_lp_status_total_decay, h3, h56]
    norm_num

/-- C2 witness: for the example season, three full days after the first
decay point the total decay is 168. -/
theorem get_lp_status_decay_spec_witness :
    exSeason.daily_decay = 56
    ∧ (get_lp_status exSeason [] (first_decay_point exSeason + 3 * 86400)).total_decay = 168 :=
  ⟨rfl, (get_lp_status_decay_spec exSeason []
    (first_decay_point exSeason + 3 * 86400)).2.2.2.2 rfl rfl⟩

/-- C3: the day-bucket rule maps an instant to its local calendar date
when the local time of day has reached day_start_hour, and to the
previous date otherwise; get_lp_status applies the same rule to now and
to every task finish time when computing today's gain; a finish one
minute before day_start_hour lands on the previous day and a finish at
exactly day_start_hour lands on the current day. -/
theorem day_bucket_rule (tz hour : Int) (h0 : 0 ≤ hour) (h23 : hour ≤ 23) :
    (∀ t : Int,
      (hour * 3600 ≤ timeOf (t + tz) → lpBucketDate t tz hour = dateOf (t + tz))
      ∧ (timeOf (t + tz) < hour * 3600 → lpBucketDate t tz hour = dateOf (t + tz) - 1))
    ∧ (∀ (season : Season) (tasks : List Task) (now : Int),
        season.tzOffset = tz → season.day_start_hour = hour →
        (get_lp_status season tasks now).daily_lp_gain
          = (((tasks.filter (·.completed)).filter (fun tk =>
                match finish_instant tz tk with
                | some ft => lpBucketDate ft tz hour == lpBucketDate now tz hour
                | none => false)).map (fun tk => tk.lp_gain.getD 0)).sum)
    ∧ (∀ d : Int,
        lpBucketDate (combineLocal d hour tz) tz hour = d
        ∧ lpBucketDate (combineLocal d hour tz - 60) tz hour = d - 1) := by
  refine ⟨?_, ?_, ?_⟩
  · intro t
    constructor
    · intro hge
      unfold lpBucketDate
      rw [if_neg (not_lt.mpr hge)]
    · intro hlt
      unfold lpBucketDate
      rw [if_pos hlt]
      unfold dateOf
      rw [fdiv_86400, fdiv_86400]
      omega
  · intro season tasks now htz hh
    subst htz
    subst hh
    rfl
  · intro d
    constructor
    · simp only [lpBucketDate, timeOf, dateOf, fdiv_86400, emod_86400,
        show combineLocal d hour tz + tz = d * 86400 + hour * 3600 from by
          unfold combineLocal; ring]
      split_ifs with h1 <;> omega
    · simp only [lpBucketDate, timeOf, dateOf, fdiv_86400, emod_86400,
        show combineLocal d hour tz - 60 + tz = d * 86400 + hour * 3600 - 60 from by
          unfold combineLocal; ring]
      split_ifs with h1 <;> omega

/-- C3 witness: with a 05:00 day-start hour in a zone 4 hours behind
UTC, a finish at exactly 05:00 of local day 20290 buckets to day 20290
and a finish one minute earlier buckets to day 20289. -/
theorem day_bucket_rule_witness :
    (0 : Int) ≤ 5 ∧ (5 : Int) ≤ 23
    ∧ lpBucketDate (combineLocal 20290 5 (-14400)) (-14400) 5 = 20290
    ∧ lpBucketDate (combineLocal 20290 5 (-14400) - 60) (-14400) 5 = 20289 := by
  refine ⟨by decide, by decide, ?_, ?_⟩
  · exact ((day_bucket_rule (-14400) 5 (by decide) (by decide)).2.2 20290).1
  · have h := ((day_bucket_rule (-14400) 5 (by decide) (by decide)).2.2 20290).2
    rw [h]
    decide

/-- C6: days_passed is never negative; it is monotone non-decreasing in
now; and once the first decay point is reached it advances by exactly
one every 24 hours. -/
theorem days_passed_props (season : Season) (tasks : List Task) (t1 t2 : Int) :
    0 ≤ (get_lp_status season tasks t1).days_passed
    ∧ (t1 ≤ t2 →
        (get_lp_status season tasks t1).days_passed
          ≤ (get_lp_status season tasks t2).days_passed)
    ∧ (first_decay_point season ≤ t1 →
        (get_lp_status season tasks (t1 + 86400)).days_passed
          = (get_lp_status season tasks t1).days_passed + 1) := by
  simp only [get_lp_status_days_passed]
  unfold days_passed
  simp only [fdiv_86400]
  refine ⟨le_max_left _ _, fun h => ?_, fun h => ?_⟩
  · exact max_le_max le_rfl (Int.ediv_le_ediv (by norm_num) (by omega))
  · have ha : (0 : Int) ≤ (t1 - first_decay_point season) / 86400 :=
      Int.ediv_nonneg (by omega) (by norm_num)
    have hb : (0 : Int) ≤ (t1 + 86400 - first_decay_point season) / 86400 :=
      Int.ediv_nonneg (by omega) (by norm_num)
    rw [max_eq_right ha, max_eq_right hb]
    omega

/-- C6 witness: for the example season, one day after the first decay
point the count is one more than at the first decay point. -/
theorem days_passed_props_witness :
    first_decay_point exSeason ≤ first_decay_point exSeason
    ∧ (get_lp_status exSeason [] (first_decay_point exSeason + 86400)).days_passed
        = (get_lp_status exSeason [] (first_decay_point exSeason)).days_passed + 1 :=
  ⟨le_refl _, (days_passed_props exSeason [] (first_decay_point exSeason)
    (first_decay_point exSeason)).2.2 (le_refl _)⟩

lemma next_decay_point_spec_aux (season : Season) (now : Int)
    (h0 : 0 ≤ season.day_start_hour) (h23 : season.day_start_hour ≤ 23) :
    now < next_decay_point season now
    ∧ (∃ d : Int, next_decay_point season now
        = combineLocal d season.day_start_hour season.tzOffset)
    ∧ (∀ d : Int, now < combineLocal d season.day_start_hour season.tzOffset →
        next_decay_point season now ≤ combineLocal d season.day_start_hour season.tzOffset) := by
  have hlow : dateOf (now + season.tzOffset) * 86400 ≤ now + season.tzOffset
      ∧ now + season.tzOffset < (dateOf (now + season.tzOffset) + 1) * 86400 := by
    unfold dateOf
    rw [fdiv_86400]
    constructor <;> omega
  unfold next_decay_point
  by_cases hcase : combineLocal (dateOf (now + season.tzOffset))
      season.day_start_hour season.tzOffset ≤ now
  · rw [if_pos hcase]
    refine ⟨?_, ⟨dateOf (now + season.tzOffset) + 1, by unfold combineLocal; ring⟩, ?_⟩
    · unfold combineLocal at *
      omega
    · intro d hd
      unfold combineLocal at *
      omega
  · rw [if_neg hcase]
    push_neg at hcase
    refine ⟨hcase, ⟨dateOf (now + season.tzOffset), rfl⟩, ?_⟩
    intro d hd
    unfold combineLocal at *
    omega

/-- C8: time_until_next_decay is the gap from now to the next strictly
future instant of the form local-date plus day_start_hour, so it is
always strictly positive (also when now is exactly such an instant),
and breakeven_lp_gain_required is max(0, daily_decay - net_total_lp). -/
theorem next_decay_spec (season : Season) (tasks : List Task) (now : Int)
    (h0 : 0 ≤ season.day_start_hour) (h23 : season.day_start_hour ≤ 23) :
    (get_lp_status season tasks now).time_until_next_decay
      = next_decay_point season now - now
    ∧ 0 < (get_lp_status season tasks now).time_until_next_decay
    ∧ now < next_decay_point season now
    ∧ (∃ d : Int, next_decay_point season now
        = combineLocal d season.day_start_hour season.tzOffset)
    ∧ (∀ d : Int, now < combineLocal d season.day_start_hour season.tzOffset →
        next_decay_point season now ≤ combineLocal d season.day_start_hour season.tzOffset)
    ∧ (get_lp_status season tasks now).breakeven_lp_gain_required
      = max 0 (season.daily_decay - (get_lp_status season tasks now).net_total_lp) := by
  obtain ⟨hpos, hform, hmin⟩ := next_decay_point_spec_aux season now h0 h23
  exact ⟨rfl, by show 0 < next_decay_point season now - now; omega, hpos, hform, hmin, rfl⟩

/-- C8 witness: for the example season, at the first decay point itself
the time until the next decay is strictly positive. -/
theorem next_decay_spec_witness :
    (0 : Int) ≤ exSeason.day_start_hour ∧ exSeason.day_start_hour ≤ 23
    ∧ 0 < (get_lp_status exSeason [] (first_decay_point exSeason)).time_until_next_decay :=
  ⟨by decide, by decide,
    (next_decay_spec exSeason [] (first_decay_point exSeason) (by decide) (by decide)).2.1⟩

/-! Season lifecycle lemmas. -/

lemma count_active_cons (s : Season) (rest : List Season) :
    count_active (s :: rest) = (if s.is_active then 1 else 0) + count_active rest := by
  simp only [count_active, List.filter_cons]
  split_ifs <;> simp [Nat.add_comm]

lemma count_active_append (l1 l2 : List Season) :
    count_active (l1 ++ l2) = count_active l1 + count_active l2 := by
  simp [count_active, List.filter_append]

lemma deactivate_first_active_ids (l : List Season) :
    (deactivate_first_active l).map (·.id) = l.map (·.id) := by
  induction l with
  | nil => rfl
  | cons s rest ih =>
    by_cases hs : s.is_active
    · simp [deactivate_first_active, hs]
    · simp [deactivate_first_active, hs, ih]

lemma activate_first_ids (sid : Int) (l : List Season) :
    (activate_first sid l).map (·.id) = l.map (·.id) := by
  induction l with
  | nil => rfl
  | cons s rest ih =>
    by_cases hs : s.id = sid
    · simp [activate_first, hs]
    · simp [activate_first, hs, ih]

lemma count_active_deactivate (l : List Season) (h : count_active l ≤ 1) :
    count_active (deactivate_first_active l) = 0 := by
  induction l with
  | nil => rfl
  | cons s rest ih =>
    rw [count_active_cons] at h
    by_cases hs : s.is_active
    · rw [if_pos hs] at h
      unfold deactivate_first_active
      rw [if_pos hs, count_active_cons]
      simp only [if_neg (by simp : ¬ (false = true))]
      omega
    · rw [if_neg hs] at h
      unfold deactivate_first_active
      rw [if_neg hs, count_active_cons, if_neg hs, ih (by omega)]

lemma count_active_activate_of_found (sid : Int) (l : List Season)
    (hfound : (l.find? (fun s => s.id == sid)).isSome)
    (h0 : count_active l = 0) :
    count_active (activate_first sid l) = 1 := by
  induction l with
  | nil => simp [List.find?] at hfound
  | cons s rest ih =>
    rw [count_active_cons] at h0
    have hs : s.is_active = false := by
      by_cases hb : s.is_active
      · rw [if_pos hb] at h0; omega
      · exact Bool.eq_false_iff.mpr hb
    rw [if_neg (by simp [hs])] at h0
    rw [Nat.zero_add] at h0
    by_cases hid : s.id = sid
    · unfold activate_first
      rw [if_pos hid, count_active_cons]
      dsimp only
      rw [if_pos rfl, h0]
    · unfold activate_first
      rw [if_neg hid, count_active_cons, if_neg (by simp [hs])]
      have hfound' : ((rest.find? (fun s => s.id == sid)).isSome) := by
        rw [List.find?_cons_of_neg] at hfound
        · exact hfound
        · simp [hid]
      rw [ih hfound' h0]

/-- C9: with at most one season active, create_season and switch_season
each deactivate the previous active season and leave exactly one season
active; neither transition deletes a season (the id list is preserved,
with creation appending the new id); and with no active season,
get_active_season reports NoActiveSeasonError instead of crashing. -/
theorem season_lifecycle (seasons : List Season) (hinv : count_active seasons ≤ 1) :
    (∀ s : Season,
        count_active (create_season s seasons) = 1
        ∧ (create_season s seasons).map (·.id) = seasons.map (·.id) ++ [s.id])
    ∧ (∀ (sid : Int) (out : List Season), switch_season sid seasons = .ok out →
        count_active out = 1 ∧ out.map (·.id) = seasons.map (·.id))
    ∧ (count_active seasons = 0 →
        get_active_season seasons = .error .noActiveSeason) := by
  refine ⟨?_, ?_, ?_⟩
  · intro s
    constructor
    · rw [create_season, count_active_append, count_active_deactivate _ hinv]
      simp [count_active]
    · simp [create_season, deactivate_first_active_ids]
  · intro sid out hok
    unfold switch_season at hok
    cases hfind : (deactivate_first_active seasons).find? (fun s => s.id == sid) with
    | none =>
      rw [hfind] at hok
      exact absurd hok (by simp)
    | some s0 =>
      rw [hfind] at hok
      injection hok with hout
      subst hout
      constructor
      · exact count_active_activate_of_found sid _ (by rw [hfind]; rfl)
          (count_active_deactivate _ hinv)
      · rw [activate_first_ids, deactivate_first_active_ids]
  · intro h0
    unfold get_active_season
    cases hf : seasons.find? (·.is_active) with
    | none => rfl
    | some s =>
      exfalso
      have hmem : s ∈ seasons := List.mem_of_find?_eq_some hf
      have hact : s.is_active := List.find?_some hf
      have : s ∈ seasons.filter (·.is_active) := List.mem_filter.mpr ⟨hmem, hact⟩
      have hlen : (seasons.filter (·.is_active)).length = 0 := h0
      rw [List.length_eq_zero] at hlen
      rw [hlen] at this
      exact List.not_mem_nil s this

/-- C9 witness: on the two-season example, creating a third season and
switching to season 2 both leave exactly one active season. -/
theorem season_lifecycle_witness :
    count_active exSeasons ≤ 1
    ∧ count_active (create_season exNewSeason exSeasons) = 1
    ∧ count_active (activate_first 2 (deactivate_first_active exSeasons)) = 1 := by
  refine ⟨by decide, ((season_lifecycle exSeasons (by decide)).1 exNewSeason).1, ?_⟩
  exact ((season_lifecycle exSeasons (by decide)).2.1 2
    (activate_first 2 (deactivate_first_active exSeasons)) rfl).1

end AutomlTodolist
